import Mathlib

/-
Verification development for the s2n handshake / ECDHE key-exchange core.

The repository provides the public header crypto/s2n_ecc_evp.h, the SAW
verification Makefile (src/tests/saw/Makefile) and the integration test
driver for s2nd.  The C bodies of the ECDHE engine and of the handshake
conductor are not part of the source tree, so those operations are
modelled from the specification (each such definition carries a doc
comment saying so); the preprocessor configuration in s2n_ecc_evp.h
(MODERN_EC_SUPPORTED) is embedded directly from the header.
-/

namespace S2N

/-- Error taxonomy of the core, from the specification's error-handling
design: protocol-order violations, decode length mismatches, failed group
negotiation, degenerate key-exchange results, and internal failures. -/
inductive S2nError where
  | PROTOCOL_VIOLATION
  | MALFORMED_MESSAGE
  | UNSUPPORTED_CURVE
  | KEY_EXCHANGE_FAILURE
  | INTERNAL
deriving DecidableEq, Repr

/-- A supported named curve: IANA group id, field width in bytes, and
whether the wire format is raw-Montgomery (modern) or classic
uncompressed.  Mirrors struct s2n_ecc_named_curve as used by
crypto/s2n_ecc_evp.h. -/
structure NamedCurve where
  iana_id : Nat
  field_width : Nat
  montgomery : Bool
deriving DecidableEq, Repr

/-- Wire size in bytes of an encoded public point: classic curves send a
tag byte followed by both coordinates, Montgomery curves send the raw
field element. -/
def share_size (c : NamedCurve) : Nat :=
  if c.montgomery then c.field_width else 2 * c.field_width + 1

/-- NIST P-256 (secp256r1), IANA group id 23, 32-byte field. -/
def s2n_ecc_curve_secp256r1 : NamedCurve := ⟨23, 32, false⟩

/-- NIST P-384 (secp384r1), IANA group id 24, 48-byte field. -/
def s2n_ecc_curve_secp384r1 : NamedCurve := ⟨24, 48, false⟩

/-- x25519, IANA group id 29, 32-byte raw Montgomery format; declared by
the header only when MODERN_EC_SUPPORTED is 1. -/
def s2n_ecc_curve_x25519 : NamedCurve := ⟨29, 32, true⟩

/-- IANA id used by the integration tests for the unsupported curve
B-163 (sect163r2). -/
def b163_id : Nat := 3

/-- IANA id used by the integration tests for the unsupported curve
K-409 (sect409k1). -/
def k409_id : Nat := 11

/-- Libcrypto build configuration relevant to s2n_ecc_evp.h lines 27-32:
the OpenSSL version triple and whether the library is LibreSSL. -/
structure Libcrypto where
  openssl_major : Nat
  openssl_minor : Nat
  openssl_fix : Nat
  is_libressl : Bool
deriving DecidableEq, Repr

/-- Embedding of the S2N_OPENSSL_VERSION_AT_LEAST(major, minor, fix)
macro test used in s2n_ecc_evp.h line 27: lexicographic comparison of the
packed OpenSSL version number against the given triple. -/
def S2N_OPENSSL_VERSION_AT_LEAST (lc : Libcrypto) (major minor fix : Nat) : Bool :=
  decide (major < lc.openssl_major) ||
    (decide (major = lc.openssl_major) &&
      (decide (minor < lc.openssl_minor) ||
        (decide (minor = lc.openssl_minor) && decide (fix ≤ lc.openssl_fix))))

/-- Embedding of the preprocessor conditional of s2n_ecc_evp.h lines
27-32: MODERN_EC_SUPPORTED is 1 exactly when the libcrypto is OpenSSL at
least 1.1.0 and is not LibreSSL. -/
def MODERN_EC_SUPPORTED (lc : Libcrypto) : Bool :=
  S2N_OPENSSL_VERSION_AT_LEAST lc 1 1 0 && !lc.is_libressl

/-- Modelled from the spec: the contents of
s2n_ecc_evp_supported_curves_list (the defining .c file is not under
src/).  The registry exposes the classic named curves P-256 and P-384 in
local preference order, and additionally x25519 exactly when the header
declares it, i.e. when MODERN_EC_SUPPORTED is 1. -/
def s2n_ecc_evp_supported_curves_list (lc : Libcrypto) : List NamedCurve :=
  if MODERN_EC_SUPPORTED lc then
    [s2n_ecc_curve_secp256r1, s2n_ecc_curve_secp384r1, s2n_ecc_curve_x25519]
  else
    [s2n_ecc_curve_secp256r1, s2n_ecc_curve_secp384r1]

/-- Modelled from the spec: s2n_ecc_evp_find_supported_curve (the
defining .c file is not under src/; the header declares it at
s2n_ecc_evp.h line 59).  Walks the local preference-ordered
supported-curves list and selects the first local curve whose IANA id is
also present in the peer-offered id list; peer ids not recognized
locally are ignored. -/
def s2n_ecc_evp_find_supported_curve (localList : List NamedCurve)
    (iana_ids : List Nat) : Option NamedCurve :=
  localList.find? (fun c => iana_ids.contains c.iana_id)

/-- A cipher suite as seen by curve negotiation: its OpenSSL-style name
and whether its key exchange requires an elliptic curve (ECDHE). -/
structure CipherSuite where
  name : String
  requires_ec : Bool
deriving DecidableEq, Repr

/-- Outcome of cipher-suite selection: an ECDHE suite together with the
negotiated curve, a non-EC suite, or a negotiation failure. -/
inductive SuiteSelection where
  | ecSuite (s : CipherSuite) (c : NamedCurve)
  | plainSuite (s : CipherSuite)
  | failure (e : S2nError)
deriving DecidableEq, Repr

/-- Modelled from the spec: the server's cipher-suite selection policy
around curve negotiation (the defining tls/ .c files are not under
src/).  Walk the mutually-offered suites in preference order; an ECDHE
suite is selectable only when curve negotiation finds a match, otherwise
re-selection moves on to the next suite; a non-EC suite is always
selectable at this point; if nothing remains, fail with
UNSUPPORTED_CURVE.  The selection never proceeds with an unnegotiated
curve: an ECDHE result always carries the curve negotiation returned. -/
def select_cipher_suite (suites : List CipherSuite) (localList : List NamedCurve)
    (iana_ids : List Nat) : SuiteSelection :=
  match suites with
  | [] => .failure .UNSUPPORTED_CURVE
  | s :: rest =>
    if s.requires_ec then
      match s2n_ecc_evp_find_supported_curve localList iana_ids with
      | some c => .ecSuite s c
      | none => select_cipher_suite rest localList iana_ids
    else
      .plainSuite s

/-- The selection fell back to a suite whose key exchange does not
require an elliptic curve. -/
def non_ec_fallback (r : SuiteSelection) : Bool :=
  match r with
  | .plainSuite s => !s.requires_ec
  | _ => false

/-- The ECDHE suite offered in the fallback integration test. -/
def ecdhe_rsa_aes128_sha256 : CipherSuite := ⟨"ECDHE-RSA-AES128-SHA256", true⟩

/-- The non-EC suite the fallback integration test expects to be
negotiated when no curve matches. -/
def aes256_gcm_sha384 : CipherSuite := ⟨"AES256-GCM-SHA384", false⟩

/-- Modelled from the spec: s2n_ecc_evp_read_params_point (the defining
.c file is not under src/; the header declares it at s2n_ecc_evp.h line
47).  The input is the remaining bytes of the key-exchange message: a
one-byte declared point length followed by the point bytes.  The
declared length must equal the negotiated curve's expected wire-point
size and that many bytes must be available; every check happens before
any point byte is used, and only the first point_size bytes after the
length byte are ever read. -/
def s2n_ecc_evp_read_params_point (input : List Nat) (point_size : Nat) :
    Except S2nError (List Nat) :=
  match input with
  | [] => .error .MALFORMED_MESSAGE
  | declared :: rest =>
    if declared ≠ point_size then .error .MALFORMED_MESSAGE
    else if rest.length < point_size then .error .MALFORMED_MESSAGE
    else .ok (rest.take point_size)

/-- A decoded public point: classic curves carry the two affine
coordinates, Montgomery curves the raw field element. -/
inductive PublicPoint where
  | classic (x y : List Nat)
  | raw (u : List Nat)
deriving DecidableEq, Repr

/-- Modelled from the spec: s2n_ecc_evp_write_params_point (the defining
.c file is not under src/; the header declares it at s2n_ecc_evp.h line
46).  Classic curves emit the uncompressed-point tag 0x04 followed by
both coordinates padded to the field width; Montgomery curves emit the
raw fixed-width element with no tag. -/
def s2n_ecc_evp_write_params_point (p : PublicPoint) : List Nat :=
  match p with
  | .classic x y => 4 :: (x ++ y)
  | .raw u => u

/-- A public point is well formed for a curve when its coordinates have
exactly the curve's field width and, for Montgomery curves, the element
is not the all-zero degenerate pattern.  This is the shape of every
point produced by ephemeral key generation. -/
def well_formed_point (c : NamedCurve) (p : PublicPoint) : Bool :=
  match p with
  | .classic x y =>
    !c.montgomery && decide (x.length = c.field_width) &&
      decide (y.length = c.field_width)
  | .raw u =>
    c.montgomery && decide (u.length = c.field_width) &&
      !u.all (fun b => b = 0)

/-- Modelled from the spec: s2n_ecc_evp_parse_params_point (the defining
.c file is not under src/; the header declares it at s2n_ecc_evp.h line
51).  The byte length must equal the curve's expected wire-point size
exactly (a mismatch is MALFORMED_MESSAGE, never a truncation); for
Montgomery curves the all-zero pattern is rejected; for classic curves
anything but the uncompressed tag 0x04 — in particular the
point-at-infinity encoding, which starts with 0x00 — is rejected as
KEY_EXCHANGE_FAILURE. -/
def s2n_ecc_evp_parse_params_point (c : NamedCurve) (bytes : List Nat) :
    Except S2nError PublicPoint :=
  if bytes.length ≠ share_size c then .error .MALFORMED_MESSAGE
  else if c.montgomery then
    if bytes.all (fun b => b = 0) then .error .KEY_EXCHANGE_FAILURE
    else .ok (.raw bytes)
  else
    match bytes with
    | tag :: rest =>
      if tag = 4 then .ok (.classic (rest.take c.field_width) (rest.drop c.field_width))
      else .error .KEY_EXCHANGE_FAILURE
    | [] => .error .KEY_EXCHANGE_FAILURE

/-- Modelled from the spec: scalar multiplication in a curve group of
the given order (the defining .c file of the EVP engine is not under
src/).  The group is abstracted as the additive group of integers
modulo the order; scalar multiplication is repeated addition. -/
def scalar_mult (order : Nat) (k : Nat) (P : ZMod order) : ZMod order := k • P

/-- Modelled from the spec: the public point of an ephemeral key pair is
the private scalar times the curve base point (classic curves use
standard scalar multiplication by the base point; Montgomery curves use
fixed base-point scalar multiplication). -/
def generate_public_key (order : Nat) (g : ZMod order) (priv : Nat) : ZMod order :=
  scalar_mult order priv g

/-- Modelled from the spec: s2n_ecc_evp_compute_shared_secret_from_params
(the defining .c file is not under src/; the header declares it at
s2n_ecc_evp.h lines 43-45).  The shared secret is the local private
scalar times the peer's public point. -/
def s2n_ecc_evp_compute_shared_secret_from_params (order : Nat) (priv : Nat)
    (peerPub : ZMod order) : ZMod order :=
  scalar_mult order priv peerPub

/-- Handshake message kinds received by one side of the connection. -/
inductive MsgKind where
  | clientHello
  | serverHello
  | serverCert
  | serverKeyExchange
  | certRequest
  | serverHelloDone
  | clientCert
  | clientKeyExchange
  | certVerify
  | changeCipherSpec
  | finished
deriving DecidableEq, Repr

/-- Result of driving the conductor over the received messages: the row
completed, the run still needs more input, or a fatal error. -/
inductive RunResult where
  | completed
  | suspended
  | failed (e : S2nError)
deriving DecidableEq, Repr

/-- Modelled from the spec: the Handshake Conductor's receive loop (the
defining tls/ .c files are not under src/).  Each complete message's
kind is checked against the expected slot of the current state; a
mismatch — including any message arriving after the row is exhausted —
fails with PROTOCOL_VIOLATION; a matching message advances the state;
running out of input before the row ends suspends. -/
def conduct (expected received : List MsgKind) : RunResult :=
  match expected, received with
  | [], [] => .completed
  | _ :: _, [] => .suspended
  | [], _ :: _ => .failed .PROTOCOL_VIOLATION
  | e :: es, r :: rs =>
    if r = e then conduct es rs else .failed .PROTOCOL_VIOLATION

/-- Modelled from the spec: Handshake State Table row for the messages a
server receives in a full handshake — ChangeCipherSpec sits in the
single slot immediately preceding the client's Finished. -/
def row_server_full : List MsgKind :=
  [.clientHello, .clientKeyExchange, .changeCipherSpec, .finished]

/-- Modelled from the spec: row for the messages a server receives in a
full handshake with client authentication. -/
def row_server_full_client_auth : List MsgKind :=
  [.clientHello, .clientCert, .clientKeyExchange, .certVerify,
   .changeCipherSpec, .finished]

/-- Modelled from the spec: row for the messages a server receives in an
abbreviated (resumed) handshake. -/
def row_server_abbreviated : List MsgKind :=
  [.clientHello, .changeCipherSpec, .finished]

/-- Modelled from the spec: row for the messages a client receives in a
full ECDHE handshake. -/
def row_client_full : List MsgKind :=
  [.serverHello, .serverCert, .serverKeyExchange, .serverHelloDone,
   .changeCipherSpec, .finished]

/-- Modelled from the spec: row for the messages a client receives in an
abbreviated (resumed) handshake. -/
def row_client_abbreviated : List MsgKind :=
  [.serverHello, .changeCipherSpec, .finished]

/-- The rows of the Handshake State Table modelled here. -/
def handshake_rows : List (List MsgKind) :=
  [row_server_full, row_server_full_client_auth, row_server_abbreviated,
   row_client_full, row_client_abbreviated]

/-- Every occurrence of ChangeCipherSpec in the row is immediately
followed by Finished. -/
def ccs_immediately_precedes_finished : List MsgKind → Bool
  | [] => true
  | .changeCipherSpec :: rest =>
    match rest with
    | .finished :: rest2 => ccs_immediately_precedes_finished rest2
    | _ => false
  | _ :: rest => ccs_immediately_precedes_finished rest

/-- A completed conductor run consumed exactly the expected row. -/
theorem conduct_completed_iff (expected received : List MsgKind) :
    conduct expected received = .completed ↔ received = expected := by
  induction expected generalizing received with
  | nil => cases received <;> simp [conduct]
  | cons e es ih =>
    cases received with
    | nil => simp [conduct]
    | cons r rs =>
      by_cases h : r = e
      · subst h
        simp [conduct, ih]
      · simp [conduct, h]

/-- A received message that differs from the expected slot, after a
prefix of matching messages, makes the conductor fail with
PROTOCOL_VIOLATION. -/
theorem conduct_mismatch (pre tail rest : List MsgKind) (m : MsgKind)
    (h : tail.head? ≠ some m) :
    conduct (pre ++ tail) (pre ++ m :: rest) = .failed .PROTOCOL_VIOLATION := by
  induction pre with
  | nil =>
    cases tail with
    | nil => simp [conduct]
    | cons t ts =>
      have hne : m ≠ t := by
        intro he
        exact h (by simp [he])
      simp [conduct, hne]
  | cons p ps ih => simpa [conduct] using ih

/-- Two predicates that agree on a list give the same first match. -/
theorem find?_congr_on {α : Type} (l : List α) (p q : α → Bool)
    (h : ∀ a ∈ l, p a = q a) : l.find? p = l.find? q := by
  induction l with
  | nil => rfl
  | cons x xs ih =>
    have hx := h x (List.mem_cons_self x xs)
    cases hq : q x with
    | true => rw [List.find?_cons_of_pos xs (hx.trans hq), List.find?_cons_of_pos xs hq]
    | false =>
      rw [List.find?_cons_of_neg xs (by simp [hx, hq]),
        List.find?_cons_of_neg xs (by simp [hq])]
      exact ih fun a ha => h a (List.mem_cons_of_mem x ha)

/-- find? selects the element after the longest all-false front part. -/
theorem find?_first_match {α : Type} (pre post : List α) (c : α) (p : α → Bool)
    (hpre : ∀ a ∈ pre, p a = false) (hc : p c = true) :
    (pre ++ c :: post).find? p = some c := by
  induction pre with
  | nil => simpa using List.find?_cons_of_pos post hc
  | cons x xs ih =>
    rw [List.cons_append, List.find?_cons_of_neg _ (by simp [hpre x (List.mem_cons_self x xs)])]
    exact ih fun a ha => hpre a (List.mem_cons_of_mem x ha)

/-- Filtering the peer id list down to the locally-known ids does not
change whether a locally supported curve's id is contained in it. -/
theorem contains_filter_known (ids : List Nat) (l : List NamedCurve) (c : NamedCurve)
    (hc : c ∈ l) :
    (ids.filter (fun id => l.any (fun c2 => c2.iana_id == id))).contains c.iana_id =
      ids.contains c.iana_id := by
  have hf : (l.any (fun c2 => c2.iana_id == c.iana_id)) = true :=
    List.any_eq_true.mpr ⟨c, hc, by simp⟩
  simp only [List.contains, List.elem_eq_mem]
  by_cases hm : c.iana_id ∈ ids
  · have h1 : c.iana_id ∈ ids.filter (fun id => l.any (fun c2 => c2.iana_id == id)) :=
      List.mem_filter.mpr ⟨hm, hf⟩
    simp [h1, hm]
  · have h1 : c.iana_id ∉ ids.filter (fun id => l.any (fun c2 => c2.iana_id == id)) := by
      intro h2
      exact hm (List.mem_filter.mp h2).1
    simp [h1, hm]

/-- C3: curve negotiation walks the local preference-ordered
supported-curves list and selects the first local curve whose id is also
present in the peer-offered id set; every selected curve is a local
curve whose id the peer offered; in particular, with the client offering
[P-256, P-384] and the server preference [P-384, P-256], the negotiated
curve is P-384 — local (server) preference order wins over peer
order. -/
theorem c3_local_preference_first_match :
    (∀ (pre post : List NamedCurve) (c : NamedCurve) (ids : List Nat),
      (∀ c2 ∈ pre, ids.contains c2.iana_id = false) →
      ids.contains c.iana_id = true →
      s2n_ecc_evp_find_supported_curve (pre ++ c :: post) ids = some c) ∧
    (∀ (l : List NamedCurve) (ids : List Nat) (c : NamedCurve),
      s2n_ecc_evp_find_supported_curve l ids = some c →
      c ∈ l ∧ ids.contains c.iana_id = true) ∧
    s2n_ecc_evp_find_supported_curve
      [s2n_ecc_curve_secp384r1, s2n_ecc_curve_secp256r1]
      [s2n_ecc_curve_secp256r1.iana_id, s2n_ecc_curve_secp384r1.iana_id] =
      some s2n_ecc_curve_secp384r1 := by
  refine ⟨?_, ?_, by decide⟩
  · intro pre post c ids hpre hc
    exact find?_first_match pre post c _ hpre hc
  · intro l ids c h
    have h2 : l.find? (fun c2 => ids.contains c2.iana_id) = some c := h
    have h3 := List.find?_some h2
    exact ⟨List.mem_of_find?_eq_some h2, by simpa using h3⟩

/-- Witness for C3: applying the first-match selection to a one-element
front part that the peer did not offer. -/
theorem c3_witness :
    s2n_ecc_evp_find_supported_curve
      [s2n_ecc_curve_secp384r1, s2n_ecc_curve_secp256r1] [24] =
      some s2n_ecc_curve_secp384r1 :=
  c3_local_preference_first_match.1 [] [s2n_ecc_curve_secp256r1]
    s2n_ecc_curve_secp384r1 [24] (by decide) (by decide)

/-- C4: peer-offered ids not recognized locally are skipped without
error: if the peer list contains at least one locally supported id,
negotiation returns a curve; filtering the peer list down to the
locally-known ids does not change the outcome, so unknown ids never
cause rejection of the whole list; offering [B-163, K-409, P-256] with
only P-256 supported yields P-256. -/
theorem c4_unknown_ids_ignored :
    (∀ (l : List NamedCurve) (ids : List Nat),
      (∃ c ∈ l, ids.contains c.iana_id = true) →
      (s2n_ecc_evp_find_supported_curve l ids).isSome = true) ∧
    (∀ (l : List NamedCurve) (ids : List Nat),
      s2n_ecc_evp_find_supported_curve l
        (ids.filter (fun id => l.any (fun c2 => c2.iana_id == id))) =
      s2n_ecc_evp_find_supported_curve l ids) ∧
    s2n_ecc_evp_find_supported_curve [s2n_ecc_curve_secp256r1]
      [b163_id, k409_id, s2n_ecc_curve_secp256r1.iana_id] =
      some s2n_ecc_curve_secp256r1 := by
  refine ⟨?_, ?_, by decide⟩
  · intro l ids h
    exact List.find?_isSome.mpr h
  · intro l ids
    exact find?_congr_on l _ _ fun c hc => contains_filter_known ids l c hc

/-- Witness for C4: the noise-tolerance example of the integration test,
derived from the existence part of the theorem. -/
theorem c4_witness :
    (s2n_ecc_evp_find_supported_curve [s2n_ecc_curve_secp256r1]
      [b163_id, k409_id, s2n_ecc_curve_secp256r1.iana_id]).isSome = true :=
  c4_unknown_ids_ignored.1 [s2n_ecc_curve_secp256r1]
    [b163_id, k409_id, s2n_ecc_curve_secp256r1.iana_id]
    ⟨s2n_ecc_curve_secp256r1, by decide, by decide⟩

/-- C5: when curve negotiation finds no match, a configuration that
also allows a non-EC cipher suite completes selection with a non-EC
suite; if every allowed suite requires EC, selection fails with
UNSUPPORTED_CURVE; and an EC suite is only ever selected together with
the curve negotiation actually returned — never an unnegotiated or
implicit curve. -/
theorem c5_non_ec_fallback :
    (∀ (suites : List CipherSuite) (l : List NamedCurve) (ids : List Nat),
      s2n_ecc_evp_find_supported_curve l ids = none →
      (∃ s ∈ suites, s.requires_ec = false) →
      non_ec_fallback (select_cipher_suite suites l ids) = true) ∧
    (∀ (suites : List CipherSuite) (l : List NamedCurve) (ids : List Nat),
      s2n_ecc_evp_find_supported_curve l ids = none →
      (∀ s ∈ suites, s.requires_ec = true) →
      select_cipher_suite suites l ids = .failure .UNSUPPORTED_CURVE) ∧
    (∀ (suites : List CipherSuite) (l : List NamedCurve) (ids : List Nat)
      (s : CipherSuite) (c : NamedCurve),
      select_cipher_suite suites l ids = .ecSuite s c →
      s2n_ecc_evp_find_supported_curve l ids = some c) := by
  refine ⟨?_, ?_, ?_⟩
  · intro suites l ids hnone hex
    induction suites with
    | nil => simp at hex
    | cons s rest ih =>
      cases hre : s.requires_ec with
      | true =>
        rcases hex with ⟨s2, hs2, hs2ec⟩
        rcases List.mem_cons.mp hs2 with h | h
        · rw [h] at hs2ec
          rw [hs2ec] at hre
          cases hre
        · simpa [select_cipher_suite, hre, hnone] using ih ⟨s2, h, hs2ec⟩
      | false => simp [select_cipher_suite, hre, non_ec_fallback]
  · intro suites l ids hnone hall
    induction suites with
    | nil => simp [select_cipher_suite]
    | cons s rest ih =>
      have hre := hall s (List.mem_cons_self s rest)
      simpa [select_cipher_suite, hre, hnone] using
        ih fun s2 h2 => hall s2 (List.mem_cons_of_mem s h2)
  · intro suites l ids s c
    induction suites with
    | nil => simp [select_cipher_suite]
    | cons s2 rest ih =>
      cases hre : s2.requires_ec with
      | true =>
        cases hf : s2n_ecc_evp_find_supported_curve l ids with
        | some c2 =>
          intro hsel
          simp [select_cipher_suite, hre, hf] at hsel
          rw [hsel.2]
        | none =>
          intro hsel
          have h2 := ih (by simpa [select_cipher_suite, hre, hf] using hsel)
          rw [hf] at h2
          exact h2
      | false =>
        intro hsel
        simp [select_cipher_suite, hre] at hsel

/-- Witness for C5: the fallback integration test's configuration — an
ECDHE suite plus AES256-GCM-SHA384 with only unsupported curves
offered — completes with the non-EC suite. -/
theorem c5_witness :
    non_ec_fallback (select_cipher_suite
      [ecdhe_rsa_aes128_sha256, aes256_gcm_sha384]
      [s2n_ecc_curve_secp256r1, s2n_ecc_curve_secp384r1]
      [b163_id, k409_id]) = true :=
  c5_non_ec_fallback.1 [ecdhe_rsa_aes128_sha256, aes256_gcm_sha384]
    [s2n_ecc_curve_secp256r1, s2n_ecc_curve_secp384r1] [b163_id, k409_id]
    (by decide) ⟨aes256_gcm_sha384, by decide, rfl⟩

/-- C7: shared-secret derivation is symmetric in which side holds the
private material: deriving from A's private scalar and B's public point
equals deriving from B's private scalar and A's public point, for any
curve group order, base point and scalars. -/
theorem c7_shared_secret_symmetry (order a b : Nat) (g : ZMod order) :
    s2n_ecc_evp_compute_shared_secret_from_params order a (generate_public_key order g b) =
      s2n_ecc_evp_compute_shared_secret_from_params order b (generate_public_key order g a) := by
  show a • (b • g) = b • (a • g)
  rw [smul_smul, smul_smul, Nat.mul_comm]

/-- C1: in every handshake row ChangeCipherSpec has cardinality exactly
one and sits immediately before Finished; a completed conductor run
accepts exactly the row, hence accepts ChangeCipherSpec exactly once and
only in that fixed slot; and a ChangeCipherSpec arriving at any position
whose expected slot is not ChangeCipherSpec — before the peer's
identifying first message, at any other position, or a second time after
the single slot was consumed — fails the handshake with
PROTOCOL_VIOLATION. -/
theorem c1_ccs_exactly_once_before_finished :
    (handshake_rows.all (fun r =>
      (r.count MsgKind.changeCipherSpec == 1) &&
        ccs_immediately_precedes_finished r)) = true ∧
    (∀ (row received : List MsgKind),
      conduct row received = .completed → received = row) ∧
    (∀ (pre tail rest : List MsgKind),
      tail.head? ≠ some MsgKind.changeCipherSpec →
      conduct (pre ++ tail) (pre ++ MsgKind.changeCipherSpec :: rest) =
        .failed .PROTOCOL_VIOLATION) := by
  refine ⟨by decide, ?_, ?_⟩
  · intro row received h
    exact (conduct_completed_iff row received).mp h
  · intro pre tail rest h
    exact conduct_mismatch pre tail rest MsgKind.changeCipherSpec h

/-- Witness for C1: a ChangeCipherSpec injected as the very first
message of a full-handshake server row — before the client's
identifying ClientHello — fails with PROTOCOL_VIOLATION. -/
theorem c1_witness :
    conduct row_server_full [MsgKind.changeCipherSpec] =
      .failed .PROTOCOL_VIOLATION :=
  c1_ccs_exactly_once_before_finished.2.2 [] row_server_full [] (by decide)

/-- C2: a received key-exchange message whose declared point length does
not equal the negotiated curve's expected wire-point size fails with
MALFORMED_MESSAGE; a successful read returns exactly the expected number
of bytes taken from the received bytes themselves; and the result never
depends on anything beyond the first point_size bytes after the length
byte — every length check happens before the bytes are used. -/
theorem c2_point_length_validated :
    (∀ (declared : Nat) (rest : List Nat) (point_size : Nat),
      declared ≠ point_size →
      s2n_ecc_evp_read_params_point (declared :: rest) point_size =
        .error .MALFORMED_MESSAGE) ∧
    (∀ (input : List Nat) (point_size : Nat) (blob : List Nat),
      s2n_ecc_evp_read_params_point input point_size = .ok blob →
      blob.length = point_size ∧ blob = (input.drop 1).take point_size) ∧
    (∀ (declared : Nat) (r1 r2 : List Nat) (point_size : Nat),
      r1.take point_size = r2.take point_size →
      point_size ≤ r1.length → point_size ≤ r2.length →
      s2n_ecc_evp_read_params_point (declared :: r1) point_size =
        s2n_ecc_evp_read_params_point (declared :: r2) point_size) := by
  refine ⟨?_, ?_, ?_⟩
  · intro declared rest point_size h
    simp [s2n_ecc_evp_read_params_point, h]
  · intro input point_size blob h
    cases input with
    | nil => simp [s2n_ecc_evp_read_params_point] at h
    | cons declared rest =>
      by_cases hd : declared = point_size
      · by_cases hl : rest.length < point_size
        · simp [s2n_ecc_evp_read_params_point, hd, hl] at h
        · simp [s2n_ecc_evp_read_params_point, hd, hl] at h
          subst h
          refine ⟨?_, rfl⟩
          rw [List.length_take]
          exact Nat.min_eq_left (Nat.le_of_not_lt hl)
      · simp [s2n_ecc_evp_read_params_point, hd] at h
  · intro declared r1 r2 point_size htake h1 h2
    by_cases hd : declared = point_size
    · simp [s2n_ecc_evp_read_params_point, hd, Nat.not_lt_of_le h1,
        Nat.not_lt_of_le h2, htake]
    · simp [s2n_ecc_evp_read_params_point, hd]

/-- Witness for C2: a declared length of 5 against an expected 3-byte
point is rejected as MALFORMED_MESSAGE. -/
theorem c2_witness :
    s2n_ecc_evp_read_params_point [5, 1, 2, 3] 3 = .error .MALFORMED_MESSAGE :=
  c2_point_length_validated.1 5 [1, 2, 3] 3 (by decide)

/-- C6: for every supported curve, decoding the encoding of a
well-formed public point — the shape every freshly generated ephemeral
key has — returns the very same point, so its re-encoding is
bit-identical to the original encoding. -/
theorem c6_encode_decode_round_trip (c : NamedCurve) (p : PublicPoint)
    (h : well_formed_point c p = true) :
    s2n_ecc_evp_parse_params_point c (s2n_ecc_evp_write_params_point p) = .ok p := by
  cases p with
  | raw u =>
    simp only [well_formed_point, Bool.and_eq_true, Bool.not_eq_true',
      decide_eq_true_eq] at h
    obtain ⟨⟨hm, hlen⟩, hz⟩ := h
    simp [s2n_ecc_evp_parse_params_point, s2n_ecc_evp_write_params_point,
      share_size, hm, hlen, hz]
  | classic x y =>
    simp only [well_formed_point, Bool.and_eq_true, Bool.not_eq_true',
      decide_eq_true_eq] at h
    obtain ⟨⟨hm, hx⟩, hy⟩ := h
    have hlen : (4 :: (x ++ y)).length = share_size c := by
      simp [share_size, hm, hx, hy]
      omega
    have ht : (x ++ y).take c.field_width = x := by
      rw [← hx]
      exact List.take_left x y
    have hd : (x ++ y).drop c.field_width = y := by
      rw [← hx]
      exact List.drop_left x y
    simp [s2n_ecc_evp_parse_params_point, s2n_ecc_evp_write_params_point,
      hlen, hm, ht, hd]

/-- Witness for C6: a P-256 point with 32-byte coordinates survives the
encode/decode round trip unchanged. -/
theorem c6_witness :
    s2n_ecc_evp_parse_params_point s2n_ecc_curve_secp256r1
      (s2n_ecc_evp_write_params_point
        (PublicPoint.classic (List.replicate 32 1) (List.replicate 32 2))) =
      .ok (PublicPoint.classic (List.replicate 32 1) (List.replicate 32 2)) :=
  c6_encode_decode_round_trip s2n_ecc_curve_secp256r1
    (PublicPoint.classic (List.replicate 32 1) (List.replicate 32 2)) (by decide)

/-- C8: point decoding accepts a byte string only at exactly the
curve's expected wire size — any other length is a MALFORMED_MESSAGE
parse failure, never a best-effort truncation; the all-zero pattern on a
Montgomery curve is rejected as KEY_EXCHANGE_FAILURE; and the
point-at-infinity encoding (the single byte 0x00) is never accepted on
any curve. -/
theorem c8_decode_rejects_degenerate :
    (∀ (c : NamedCurve) (bytes : List Nat) (p : PublicPoint),
      s2n_ecc_evp_parse_params_point c bytes = .ok p →
      bytes.length = share_size c) ∧
    (∀ (c : NamedCurve) (bytes : List Nat),
      bytes.length ≠ share_size c →
      s2n_ecc_evp_parse_params_point c bytes = .error .MALFORMED_MESSAGE) ∧
    (∀ (c : NamedCurve) (bytes : List Nat),
      c.montgomery = true → bytes.length = share_size c →
      bytes.all (fun b => b = 0) = true →
      s2n_ecc_evp_parse_params_point c bytes = .error .KEY_EXCHANGE_FAILURE) ∧
    (∀ (c : NamedCurve) (p : PublicPoint),
      s2n_ecc_evp_parse_params_point c [0] ≠ .ok p) := by
  refine ⟨?_, ?_, ?_, ?_⟩
  · intro c bytes p h
    by_contra hne
    simp [s2n_ecc_evp_parse_params_point, hne] at h
  · intro c bytes h
    simp [s2n_ecc_evp_parse_params_point, h]
  · intro c bytes hm hlen hz
    simp [s2n_ecc_evp_parse_params_point, hm, hlen, hz]
  · intro c p h
    by_cases hs : (1 : Nat) = share_size c
    · cases hm : c.montgomery with
      | true => simp [s2n_ecc_evp_parse_params_point, hm, ← hs] at h
      | false => simp [s2n_ecc_evp_parse_params_point, hm, ← hs] at h
    · simp [s2n_ecc_evp_parse_params_point, hs] at h

/-- Witness for C8: a two-byte string against P-256's 65-byte
uncompressed-point size is rejected as MALFORMED_MESSAGE. -/
theorem c8_witness :
    s2n_ecc_evp_parse_params_point s2n_ecc_curve_secp256r1 [1, 2] =
      .error .MALFORMED_MESSAGE :=
  c8_decode_rejects_degenerate.2.1 s2n_ecc_curve_secp256r1 [1, 2] (by decide)

/-- C10: x25519 is in the supported-curve interface exactly when the
libcrypto is OpenSSL at least 1.1.0 and not LibreSSL (the
MODERN_EC_SUPPORTED conditional of s2n_ecc_evp.h lines 27-32); under
every other build configuration the interface exposes only classic named
curves, so no raw-Montgomery wire format is produced or accepted. -/
theorem c10_x25519_only_when_modern (lc : Libcrypto) :
    (s2n_ecc_curve_x25519 ∈ s2n_ecc_evp_supported_curves_list lc ↔
      S2N_OPENSSL_VERSION_AT_LEAST lc 1 1 0 = true ∧ lc.is_libressl = false) ∧
    (MODERN_EC_SUPPORTED lc = false →
      ∀ c ∈ s2n_ecc_evp_supported_curves_list lc, c.montgomery = false) := by
  cases hm : MODERN_EC_SUPPORTED lc with
  | true =>
    have h2 : S2N_OPENSSL_VERSION_AT_LEAST lc 1 1 0 = true ∧ lc.is_libressl = false := by
      have h3 := hm
      unfold MODERN_EC_SUPPORTED at h3
      simp only [Bool.and_eq_true, Bool.not_eq_true'] at h3
      exact h3
    constructor
    · rw [iff_true_intro h2, iff_true]
      simp [s2n_ecc_evp_supported_curves_list, hm]
    · intro hfalse
      cases hfalse
  | false =>
    have h2 : ¬ (S2N_OPENSSL_VERSION_AT_LEAST lc 1 1 0 = true ∧ lc.is_libressl = false) := by
      intro hc
      unfold MODERN_EC_SUPPORTED at hm
      rw [hc.1, hc.2] at hm
      simp at hm
    constructor
    · constructor
      · intro hmem
        rw [s2n_ecc_evp_supported_curves_list, hm] at hmem
        exact absurd hmem (by decide)
      · intro hrh
        exact absurd hrh h2
    · intro _ c hc
      rw [s2n_ecc_evp_supported_curves_list, hm] at hc
      simp at hc
      rcases hc with h | h <;>
        simp [h, s2n_ecc_curve_secp256r1, s2n_ecc_curve_secp384r1]

/-- Witness for C10: under a LibreSSL build configuration every curve of
the interface uses the classic wire format; applied to P-256. -/
theorem c10_witness : s2n_ecc_curve_secp256r1.montgomery = false :=
  (c10_x25519_only_when_modern ⟨2, 9, 0, true⟩).2 (by decide)
    s2n_ecc_curve_secp256r1 (by decide)

end S2N
